import Mathlib

/-!
# Verification of the MicroCraft simulation core (src/full)

A shallow embedding, in Lean 4, of the parts of the MicroCraft RTS
simulation core (`src/full/core/world.py`, `src/full/core/entities.py`,
`src/full/core/systems.py`, `src/full/core/selection.py`, `src/full/main.py`)
that the specification's testable claims talk about, followed by theorems
settling those claims.

Conventions used throughout:
* Python floats are modelled as rationals (`ℚ`); every comparison the code
  performs on floats is an exact comparison on the embedded rationals.
* Python `int(x)` truncates toward zero; we model it as `pyInt`.
* Python dicts used as mutable tables are modelled as association lists
  where an assignment prepends the new binding and lookups take the first
  match (`alookup`), which reproduces dict lookup behaviour exactly.
* `random.uniform(a, b)` draws are modelled as explicit parameters ranged
  over `[a, b]`, and `math.sqrt` (used only to compute values the code
  then compares or divides by) is passed in as an explicit function
  parameter where its exact value does not matter for the property.
-/

namespace Microcraft

/-- Python `int()` applied to a rational: truncation toward zero. -/
def pyInt (q : ℚ) : ℤ := if q < 0 then ⌈q⌉ else ⌊q⌋

/-- `GameMap` from `world.py`: width, height and a row-major tile grid
where `0` = grass (walkable) and `1` = rock (unwalkable). -/
structure GameMap where
  width : ℤ
  height : ℤ
  tiles : List (List ℕ)
deriving Repr, DecidableEq

/-- `GameMap.is_walkable`: in-bounds and the tile is grass (`0`).
Out-of-range list accesses cannot occur on a well-formed map whose
`tiles` dimensions match `width`/`height`; the `getD` defaults (rock)
are inert for such maps. -/
def GameMap.is_walkable (m : GameMap) (x y : ℤ) : Bool :=
  if 0 ≤ x ∧ x < m.width ∧ 0 ≤ y ∧ y < m.height then
    ((m.tiles.getD y.toNat []).getD x.toNat 1) == 0
  else
    false

/-- `GameMap.is_buildable`: a `size × size` square of walkable tiles
(default size 2). -/
def GameMap.is_buildable (m : GameMap) (x y : ℤ) (size : ℕ := 2) : Bool :=
  (List.range size).all fun dy =>
    (List.range size).all fun dx =>
      m.is_walkable (x + dx) (y + dy)

/-! ## Building production queue (`entities.py`, class `Building`) -/

/-- `Building.MAX_QUEUE_SIZE`. -/
def MAX_QUEUE_SIZE : ℕ := 5

/-- The fields of `Building` (`entities.py`) that the production code
reads or writes. -/
structure Building where
  id : ℕ
  team : ℕ
  x : ℚ
  y : ℚ
  alive : Bool
  production_queue : List String
  production_progress : ℚ
  rally_point : Option (ℚ × ℚ)
  waiting_for_minerals : Bool
  build_time : ℚ
deriving Repr, DecidableEq

/-- `Building.current_production`: head of the queue, if any. -/
def Building.current_production (b : Building) : Option String :=
  b.production_queue.head?

/-- `Building.queue_production`: append if the queue holds fewer than
`MAX_QUEUE_SIZE` items and report success, otherwise leave the building
unchanged and report failure. -/
def Building.queue_production (b : Building) (unit_type : String) :
    Building × Bool :=
  if b.production_queue.length < MAX_QUEUE_SIZE then
    ({ b with production_queue := b.production_queue ++ [unit_type] }, true)
  else
    (b, false)

/-- `Building.complete_production`: pop the queue head and reset progress. -/
def Building.complete_production (b : Building) : Building × Option String :=
  match b.production_queue with
  | [] => (b, none)
  | unit_type :: rest =>
      ({ b with production_queue := rest, production_progress := 0 },
       some unit_type)

/-! ## Fog of war (`world.py`, class `FogOfWar`) -/

/-- Visibility states. -/
def HIDDEN : ℕ := 0

/-- Seen before, but not currently visible. -/
def EXPLORED : ℕ := 1

/-- Currently visible. -/
def VISIBLE : ℕ := 2

/-- A fog grid: row-major, `grid[y][x]`, as in `FogOfWar.__init__`. -/
abbrev FogGrid := List (List ℕ)

/-- Reading a fog cell (used to state the theorems; out-of-range reads
default to `HIDDEN`, matching a freshly initialised grid). -/
def cellAt (g : FogGrid) (x y : ℕ) : ℕ := (g.getD y []).getD x HIDDEN

/-- Writing a fog cell; `List.set` leaves out-of-range indices alone,
matching the bounds check the Python code performs before each write. -/
def setCell (g : FogGrid) (x y : ℕ) (v : ℕ) : FogGrid :=
  g.set y ((g.getD y []).set x v)

/-- The entity data `FogOfWar.update_visibility` reads: liveness,
position and vision radius. -/
structure FogEntity where
  alive : Bool
  x : ℚ
  y : ℚ
  vision : ℕ
deriving Repr, DecidableEq

/-- Phase 1 of `update_visibility`: demote every `VISIBLE` cell to
`EXPLORED`. -/
def demoteVisible (g : FogGrid) : FogGrid :=
  g.map fun row => row.map fun c => if c = VISIBLE then EXPLORED else c

/-- The signed offsets `-v .. v` traversed by the vision loops. -/
def offsetRange (v : ℕ) : List ℤ :=
  (List.range (2 * v + 1)).map fun (i : ℕ) => (i : ℤ) - (v : ℤ)

/-- Reveal one tile for one entity if it is inside the vision disc and
in bounds (the `newly_visible` bookkeeping, which does not affect the
grid, is dropped). -/
def revealTile (width height : ℤ) (cx cy : ℤ) (v : ℕ) (g : FogGrid)
    (dx dy : ℤ) : FogGrid :=
  if dx * dx + dy * dy ≤ (v : ℤ) * (v : ℤ) then
    let nx := cx + dx
    let ny := cy + dy
    if 0 ≤ nx ∧ nx < width ∧ 0 ≤ ny ∧ ny < height then
      setCell g nx.toNat ny.toNat VISIBLE
    else g
  else g

/-- Phase 2 of `update_visibility` for one live entity: the two nested
offset loops (`dy` outer, `dx` inner). -/
def revealEntity (width height : ℤ) (g : FogGrid) (e : FogEntity) : FogGrid :=
  let cx := pyInt e.x
  let cy := pyInt e.y
  (offsetRange e.vision).foldl
    (fun g dy =>
      (offsetRange e.vision).foldl
        (fun g dx => revealTile width height cx cy e.vision g dx dy) g)
    g

/-- `FogOfWar.update_visibility`: demote, then reveal around every live
entity. -/
def update_visibility (width height : ℤ) (g : FogGrid)
    (entities : List FogEntity) : FogGrid :=
  entities.foldl
    (fun g e => if e.alive then revealEntity width height g e else g)
    (demoteVisible g)

/-! ## Pathfinder (`systems.py`, class `PathFinder`) -/

/-- A grid tile. -/
abbrev Tile := ℤ × ℤ

/-- `PathFinder.DIRECTIONS`: 8-directional movement with costs
(diagonal cost written `1.414` in the source). -/
def DIRECTIONS : List (Tile × ℚ) :=
  [((-1, -1), 1414/1000), ((0, -1), 1), ((1, -1), 1414/1000),
   ((-1, 0), 1), ((1, 0), 1),
   ((-1, 1), 1414/1000), ((0, 1), 1), ((1, 1), 1414/1000)]

/-- `PathFinder._heuristic`: diagonal distance,
`max(dx,dy) + 0.414 * min(dx,dy)`. -/
def heuristic (a b : Tile) : ℚ :=
  let dx := |a.1 - b.1|
  let dy := |a.2 - b.2|
  (max dx dy : ℤ) + 414/1000 * (min dx dy : ℤ)

/-- The inclusive integer range `lo .. hi` (the Python
`range(lo, hi + 1)`). -/
def rangeZ (lo hi : ℤ) : List ℤ :=
  (List.range (hi - lo + 1).toNat).map fun (i : ℕ) => lo + (i : ℤ)

/-- `PathFinder._find_nearest_walkable`: scan square rings of radius
1 .. 9 around `pos` (`dx` outer loop, `dy` inner loop, both ascending),
returning the first walkable tile found. -/
def find_nearest_walkable (m : GameMap) (pos : Tile) : Option Tile :=
  (rangeZ 1 9).findSome? fun radius =>
    ((rangeZ (-radius) radius).flatMap fun dx =>
        (rangeZ (-radius) radius).map fun dy => (dx, dy)).findSome?
      fun d =>
        if |d.1| = radius ∨ |d.2| = radius then
          let nx := pos.1 + d.1
          let ny := pos.2 + d.2
          if m.is_walkable nx ny then some (nx, ny) else none
        else none

/-- Association-list lookup taking the first binding: the observable
behaviour of a Python dict whose assignments are modelled by prepending
(`aset`). -/
def alookup {α β : Type} [DecidableEq α] (l : List (α × β)) (k : α) :
    Option β :=
  (l.find? fun p => p.1 = k).map Prod.snd

/-- Dict assignment `d[k] = v`, modelled by prepending (shadowing any
older binding under `alookup`). -/
def aset {α β : Type} (l : List (α × β)) (k : α) (v : β) : List (α × β) :=
  (k, v) :: l

/-- Strict lexicographic order on `(f_score, counter)`: how `heapq`
orders the open-set tuples (the position component is never reached
because counters are unique). -/
def fcLt (a b : ℚ × ℕ) : Bool := a.1 < b.1 ∨ (a.1 = b.1 ∧ a.2 < b.2)

/-- `heapq.heappop`: remove and return the smallest element of the open
set (by `(f, counter)`). -/
def popMin : List (ℚ × ℕ × Tile) →
    Option ((ℚ × ℕ × Tile) × List (ℚ × ℕ × Tile))
  | [] => none
  | e :: rest =>
    match popMin rest with
    | none => some (e, [])
    | some (m, rest') =>
        if fcLt (e.1, e.2.1) (m.1, m.2.1) then some (e, rest)
        else some (m, e :: rest')

/-- The mutable state of the A* loop in `PathFinder.find_path`. -/
structure AStarState where
  open_set : List (ℚ × ℕ × Tile)
  came_from : List (Tile × Tile)
  g_score : List (Tile × ℚ)
  counter : ℕ

/-- The chain `[current, parent, grandparent, …]` walked by
`PathFinder._reconstruct_path` before its reverse; fuelled because the
Python `while` loop has no syntactic termination bound. -/
def buildChain (came_from : List (Tile × Tile)) : ℕ → Tile →
    Option (List Tile)
  | 0, _ => none
  | fuel + 1, current =>
    match alookup came_from current with
    | none => some [current]
    | some parent => (buildChain came_from fuel parent).map (current :: ·)

/-- `PathFinder._reconstruct_path`: build the chain, reverse it, and
drop the leading start tile. -/
def reconstruct_path (came_from : List (Tile × Tile)) (fuel : ℕ)
    (current : Tile) : Option (List Tile) :=
  (buildChain came_from fuel current).map fun path => path.reverse.tail

/-- One relaxation of a single neighbour direction inside the A* loop. -/
def expandDir (m : GameMap) (goal : Tile) (current : Tile)
    (st : AStarState) (dc : Tile × ℚ) : AStarState :=
  let neighbor : Tile := (current.1 + dc.1.1, current.2 + dc.1.2)
  if ¬ m.is_walkable neighbor.1 neighbor.2 then st
  else
    let tentative_g := (alookup st.g_score current).getD 0 + dc.2
    if (alookup st.g_score neighbor).isNone ∨
        tentative_g < (alookup st.g_score neighbor).getD 0 then
      let f := tentative_g + heuristic neighbor goal
      { open_set := st.open_set ++ [(f, st.counter + 1, neighbor)]
        came_from := aset st.came_from neighbor current
        g_score := aset st.g_score neighbor tentative_g
        counter := st.counter + 1 }
    else st

/-- The `while open_set:` loop of `PathFinder.find_path`, fuelled. -/
def astarLoop (m : GameMap) (goal : Tile) : ℕ → AStarState →
    Option (List Tile)
  | 0, _ => none
  | fuel + 1, st =>
    match popMin st.open_set with
    | none => some []
    | some (entry, rest) =>
      let current := entry.2.2
      if current = goal then
        reconstruct_path st.came_from (fuel + 1) current
      else
        astarLoop m goal fuel
          (DIRECTIONS.foldl (expandDir m goal current) { st with open_set := rest })

/-- `PathFinder.find_path` (with the game map present, as is the case
whenever the `MovementSystem` has constructed a pathfinder): truncate
the endpoints to tiles, answer `[]` for a self-path, redirect an
unwalkable goal to the nearest walkable tile (empty if none within
radius 9), then run A*.  `none` means the fuel ran out before the loop
finished, never a source-level result. -/
def find_path (m : GameMap) (fuel : ℕ) (start goal : ℚ × ℚ) :
    Option (List Tile) :=
  let s : Tile := (pyInt start.1, pyInt start.2)
  let g : Tile := (pyInt goal.1, pyInt goal.2)
  if s = g then some []
  else
    let gw : Option Tile :=
      if m.is_walkable g.1 g.2 then some g else find_nearest_walkable m g
    match gw with
    | none => some []
    | some goal' =>
        astarLoop m goal' fuel
          { open_set := [(0, 0, s)], came_from := [], g_score := [(s, 0)],
            counter := 0 }

/-! ## Movement system (`systems.py`, class `MovementSystem`) -/

/-- The fields of `Unit` (`entities.py`) that movement reads or writes
(the facing-angle update, a rendering aid computed via `atan2`, is
omitted: no claim mentions it and it influences nothing else). -/
structure MUnit where
  id : ℕ
  team : ℕ
  x : ℚ
  y : ℚ
  speed : ℚ
  alive : Bool
  path : List Tile
  destination : Option (ℚ × ℚ)
deriving Repr, DecidableEq

/-- `MovementSystem._is_walkable` (map present): walkability of the
`int()`-truncated position. -/
def mIsWalkable (m : GameMap) (x y : ℚ) : Bool :=
  m.is_walkable (pyInt x) (pyInt y)

/-- One tick of `MovementSystem.update` for a single live unit (the
stuck-detection bookkeeping is a separate claim-free concern and the
dead-unit cleanup drops out for a live unit).  `sqrt` is the host
`math.sqrt`: the code only compares its result and divides by it, and
every theorem below holds for every interpretation of it. -/
def movement_step (sqrt : ℚ → ℚ) (m : GameMap) (fuel : ℕ) (dt : ℚ)
    (u : MUnit) : MUnit :=
  match u.path with
  | next_waypoint :: restPath =>
    let dx := (next_waypoint.1 : ℚ) - u.x
    let dy := (next_waypoint.2 : ℚ) - u.y
    let dist := sqrt (dx * dx + dy * dy)
    if dist < 1/2 then { u with path := restPath }
    else if 0 < dist then
      let move_dist := u.speed * dt
      let new_x := u.x + dx / dist * min move_dist dist
      let new_y := u.y + dy / dist * min move_dist dist
      if mIsWalkable m new_x new_y then { u with x := new_x, y := new_y }
      else
        match u.destination with
        | some dest =>
            { u with path := (find_path m fuel (u.x, u.y) dest).getD [] }
        | none => { u with path := [] }
    else u
  | [] =>
    match u.destination with
    | some dest =>
      let dx := dest.1 - u.x
      let dy := dest.2 - u.y
      let dist := sqrt (dx * dx + dy * dy)
      if dist < 1/2 then { u with destination := none }
      else
        let p := (find_path m fuel (u.x, u.y) dest).getD []
        if p.isEmpty then { u with path := p, destination := none }
        else { u with path := p }
    | none => u

/-! ## Events (`events.py`), restricted to the payloads the claims read -/

/-- The events published by the embedded system steps. -/
inductive Ev
  | productionStarted (building_id : ℕ) (unit_type : String) (team : ℕ)
      (queue_position : ℕ)
  | productionCompleted (building_id : ℕ) (unit_type : String)
      (unit_id : ℕ) (team : ℕ) (pos : ℚ × ℚ)
  | unitReady (unit_id : ℕ) (unit_type : String) (team : ℕ)
  | mineDepleted (worker_id : ℕ) (team : ℕ) (mine_pos : ℚ × ℚ)
  | gatheringStarted (worker_id : ℕ) (team : ℕ)
  | resourceCollected (worker_id : ℕ) (team : ℕ) (amount : ℤ)
      (team_total : ℤ)
  | workerWaitingForMinerals (worker_id : ℕ) (team : ℕ)
      (building_type : String) (cost : ℤ)
  | buildingConstructionStart (worker_id : ℕ) (team : ℕ)
      (building_type : String) (pos : ℚ × ℚ)
  | buildingPlaced (building_type : String) (team : ℕ) (pos : ℚ × ℚ)
      (builder_id : ℕ)
deriving Repr, DecidableEq

/-- A unit or building spawned into the world by a system step:
`(kind, team, position)`, as passed to `World.spawn_entity`. -/
structure SpawnRec where
  kind : String
  team : ℕ
  pos : ℚ × ℚ
deriving Repr, DecidableEq

/-! ## Production system (`systems.py`, class `ProductionSystem`) -/

/-- The result of processing one building for one tick. -/
structure ProdResult where
  building : Building
  minerals : ℤ
  events : List Ev
  spawns : List SpawnRec
deriving Repr, DecidableEq

/-- `ProductionSystem.update`, for a single live building for one tick.
`cost` is `UNIT_STATS[·]["cost"]`; `r ∈ [-1, 1]` is the
`random.uniform(-1, 1)` spawn offset.  The rally-point assignment and
worker auto-gather assignment act on the freshly spawned unit (not on
the building or the minerals) and the `UnitReady` name/rank draw only
decorates the event; the spawned unit's position is what the claims
read. -/
def production_step (cost : String → ℤ) (r : ℚ) (dt : ℚ) (minerals : ℤ)
    (b : Building) : ProdResult :=
  match b.production_queue.head? with
  | none => ⟨{ b with waiting_for_minerals := false }, minerals, [], []⟩
  | some unit_type =>
    let c := cost unit_type
    let started :
        Option (Building × ℤ × List Ev) :=
      if b.production_progress = 0 then
        if minerals < c then none
        else some ({ b with waiting_for_minerals := false }, minerals - c,
          [Ev.productionStarted b.id unit_type b.team
            b.production_queue.length])
      else some ({ b with waiting_for_minerals := false }, minerals, [])
    match started with
    | none => ⟨{ b with waiting_for_minerals := true }, minerals, [], []⟩
    | some (b1, minerals1, evs) =>
      let b2 := { b1 with
        production_progress := b1.production_progress + dt / b1.build_time }
      if 1 ≤ b2.production_progress then
        match b2.complete_production with
        | (b3, completed?) =>
          let completed_type := completed?.getD ""
          let spawn_x := b3.x + r
          let spawn_y := b3.y + 2
          ⟨b3, minerals1,
            evs ++ [Ev.productionCompleted b3.id completed_type 0 b3.team
                      (spawn_x, spawn_y),
                    Ev.unitReady 0 completed_type b3.team],
            [⟨completed_type, b3.team, (spawn_x, spawn_y)⟩]⟩
      else ⟨b2, minerals1, evs, []⟩

/-! ## Resource system (`systems.py`, class `ResourceSystem`) -/

/-- `MineralPatch` (`world.py`). -/
structure MineralPatch where
  id : ℕ
  x : ℚ
  y : ℚ
  minerals : ℤ
deriving Repr, DecidableEq

/-- `MineralPatch.depleted`. -/
def MineralPatch.depleted (p : MineralPatch) : Bool := p.minerals ≤ 0

/-- `Worker.state` values. -/
inductive WState
  | idle
  | moving_to_mineral
  | gathering
  | returning
  | building
deriving Repr, DecidableEq

/-- The fields of `Worker` (`entities.py`) that the resource and
building-placement systems read or write.  The Python worker holds a
reference to the shared `MineralPatch` object; its mutation is returned
alongside the worker. -/
structure WorkerE where
  id : ℕ
  team : ℕ
  x : ℚ
  y : ℚ
  alive : Bool
  carrying : ℤ
  gather_target : Option MineralPatch
  build_target : Option (String × ℚ × ℚ)
  state : WState
  waiting_for_minerals : Bool
  destination : Option (ℚ × ℚ)
deriving Repr, DecidableEq

/-- `ResourceSystem.GATHER_TIME`. -/
def GATHER_TIME : ℚ := 2

/-- `ResourceSystem.GATHER_AMOUNT`. -/
def GATHER_AMOUNT : ℤ := 8

/-- The result of `ResourceSystem._process_worker` for one tick:
the worker, its (possibly mutated) gather-target patch, the team's
mineral total, this worker's gather timer, and published events. -/
structure ResResult where
  worker : WorkerE
  minerals : ℤ
  timer : Option ℚ
  events : List Ev
deriving Repr, DecidableEq

/-- `ResourceSystem._process_worker`, one tick, with the team base at
`base` (the worker is skipped entirely when the team has no base).
`timer` is this worker's entry in `_gather_timers`. -/
def process_worker (base : ℚ × ℚ) (dt : ℚ) (minerals : ℤ)
    (timer : Option ℚ) (w : WorkerE) : ResResult :=
  match w.state with
  | WState.idle =>
    match w.gather_target with
    | some t =>
        ⟨{ w with state := WState.moving_to_mineral,
                  destination := some (t.x, t.y) }, minerals, timer, []⟩
    | none =>
        if 0 < w.carrying then
          ⟨{ w with state := WState.returning, destination := some base },
           minerals, timer, []⟩
        else ⟨w, minerals, timer, []⟩
  | WState.moving_to_mineral =>
    match w.gather_target with
    | none => ⟨{ w with state := WState.idle }, minerals, timer, []⟩
    | some t =>
      if t.depleted then
        ⟨{ w with gather_target := none, destination := none,
                  state := WState.idle }, minerals, timer,
         [Ev.mineDepleted w.id w.team (t.x, t.y)]⟩
      else
        let dx := t.x - w.x
        let dy := t.y - w.y
        if dx * dx + dy * dy < 3/2 then
          ⟨{ w with state := WState.gathering, destination := none },
           minerals, some 0, [Ev.gatheringStarted w.id w.team]⟩
        else ⟨w, minerals, timer, []⟩
  | WState.gathering =>
    match w.gather_target with
    | none => ⟨{ w with state := WState.idle }, minerals, timer, []⟩
    | some t =>
      if t.depleted then
        ⟨{ w with gather_target := none, state := WState.idle },
         minerals, timer, [Ev.mineDepleted w.id w.team (t.x, t.y)]⟩
      else
        let timer' := timer.getD 0 + dt
        if GATHER_TIME ≤ timer' then
          let amount := min GATHER_AMOUNT t.minerals
          ⟨{ w with carrying := amount,
                    gather_target :=
                      some { t with minerals := t.minerals - amount },
                    state := WState.returning, destination := some base },
           minerals, some timer', []⟩
        else ⟨w, minerals, some timer', []⟩
  | WState.returning =>
    let dx := base.1 - w.x
    let dy := base.2 - w.y
    if dx * dx + dy * dy < 2 then
      let minerals' := minerals + w.carrying
      let evDeliver := Ev.resourceCollected w.id w.team w.carrying minerals'
      let w1 := { w with carrying := 0 }
      match w1.gather_target with
      | some t =>
        if ¬ t.depleted then
          ⟨{ w1 with state := WState.moving_to_mineral,
                     destination := some (t.x, t.y) }, minerals', timer,
           [evDeliver]⟩
        else
          ⟨{ w1 with gather_target := none, state := WState.idle },
           minerals', timer,
           [evDeliver, Ev.mineDepleted w.id w.team (t.x, t.y)]⟩
      | none =>
          ⟨{ w1 with state := WState.idle }, minerals', timer, [evDeliver]⟩
    else ⟨w, minerals, timer, []⟩
  | WState.building => ⟨w, minerals, timer, []⟩

/-! ## Building placement system (`systems.py`,
class `BuildingPlacementSystem`) -/

/-- What the occupancy scan and the world-wide queries read of another
entity: identity, liveness, team, kind and position.  `kind` is the
Python class name; `hasattr(entity, 'speed')` holds exactly for the
unit classes `Worker` and `Soldier`. -/
structure EntLite where
  id : ℕ
  alive : Bool
  team : ℕ
  kind : String
  x : ℚ
  y : ℚ
deriving Repr, DecidableEq

/-- `hasattr(entity, 'speed')`: true for the two `Unit` subclasses. -/
def EntLite.hasSpeed (e : EntLite) : Bool :=
  e.kind == "Worker" || e.kind == "Soldier"

/-- The per-worker result of one `BuildingPlacementSystem.update` tick:
the worker, the team mineral total, this worker's `_build_timers` entry,
this worker's `_mineral_warning_cooldown` entry, events, spawns. -/
structure BuildResult where
  worker : WorkerE
  minerals : ℤ
  timer : Option ℚ
  warn_cooldown : Option ℚ
  events : List Ev
  spawns : List SpawnRec
deriving Repr, DecidableEq

/-- `BuildingPlacementSystem.update` for one live worker for one tick
(after the top-of-update cooldown decay, which the caller applies).
`bcost`/`bbuild_time` are `BUILDING_STATS[·]["cost"]`/`["build_time"]`;
`others` are the other world entities scanned for occupancy; `sqrt` is
the host `math.sqrt` used for the move-closer distance check. -/
def building_placement_step (sqrt : ℚ → ℚ) (bcost : String → ℤ)
    (bbuild_time : String → ℚ) (m : Option GameMap) (others : List EntLite)
    (dt : ℚ) (minerals : ℤ) (timer : Option ℚ) (warn_cooldown : Option ℚ)
    (w : WorkerE) : BuildResult :=
  match w.build_target with
  | none =>
      ⟨{ w with waiting_for_minerals := false }, minerals, timer,
       warn_cooldown, [], []⟩
  | some (building_type, bx, by_) =>
    match m with
    | none =>
        ⟨{ w with build_target := none, waiting_for_minerals := false },
         minerals, timer, warn_cooldown, [], []⟩
    | some gm =>
      let bx_int := pyInt bx
      let by_int := pyInt by_
      if ¬ (0 ≤ bx_int ∧ bx_int < gm.width ∧ 0 ≤ by_int ∧
            by_int < gm.height) then
        ⟨{ w with build_target := none, waiting_for_minerals := false },
         minerals, timer, warn_cooldown, [], []⟩
      else if ¬ gm.is_buildable bx_int by_int then
        ⟨{ w with build_target := none, waiting_for_minerals := false },
         minerals, timer, warn_cooldown, [], []⟩
      else
        let dx := bx - w.x
        let dy := by_ - w.y
        let dist := sqrt (dx * dx + dy * dy)
        if 2 < dist then
          ⟨{ w with destination := some (bx, by_),
                    waiting_for_minerals := false },
           minerals, timer, warn_cooldown, [], []⟩
        else
          let w := { w with destination := none }
          let cost := bcost building_type
          if minerals < cost then
            if w.team = 1 ∧ warn_cooldown.isNone then
              ⟨{ w with waiting_for_minerals := true }, minerals, timer,
               some 10,
               [Ev.workerWaitingForMinerals w.id w.team building_type cost],
               []⟩
            else
              ⟨{ w with waiting_for_minerals := true }, minerals, timer,
               warn_cooldown, [], []⟩
          else
            let w := { w with waiting_for_minerals := false }
            let startEvs :=
              if timer.isNone then
                [Ev.buildingConstructionStart w.id w.team building_type
                  (bx, by_)]
              else []
            let occupied := others.any fun other =>
              other.alive ∧ other.id ≠ w.id ∧
                (other.x - bx) * (other.x - bx) +
                  (other.y - by_) * (other.y - by_) < 2
            if occupied then
              ⟨{ w with build_target := none }, minerals, some 0,
               warn_cooldown, startEvs, []⟩
            else
              let timer' := timer.getD 0 + dt
              if bbuild_time building_type ≤ timer' then
                ⟨{ w with build_target := none }, minerals - cost, some 0,
                 warn_cooldown,
                 startEvs ++
                   [Ev.buildingPlaced building_type w.team (bx, by_) w.id],
                 [⟨building_type, w.team, (bx, by_)⟩]⟩
              else
                ⟨w, minerals, some timer', warn_cooldown, startEvs, []⟩

/-! ## Combat base-alert rate limiting (`systems.py`,
class `CombatSystem`, lines 335–347) -/

/-- One damage application to a base, as seen by the alert logic:
`(game_time, base_id, attacker_id)`. -/
structure BaseHit where
  time : ℚ
  base_id : ℕ
  attacker_id : ℕ
deriving Repr, DecidableEq

/-- The rate-limit decision for one applied damage on a base:
`_base_attack_cooldown.get(base_id, 0)` against the current game time,
publishing (and recording) only when at least 10 seconds have passed.
Note the attacker's identity is never consulted. -/
def base_alert_step (cooldowns : List (ℕ × ℚ)) (hit : BaseHit) :
    List (ℕ × ℚ) × Bool :=
  let last_alert := (alookup cooldowns hit.base_id).getD 0
  if 10 ≤ hit.time - last_alert then
    (aset cooldowns hit.base_id hit.time, true)
  else (cooldowns, false)

/-- Fold the rate limiter over a sequence of applied damages, returning
the hits for which a `BaseUnderAttackEvent` was published. -/
def run_alerts : List BaseHit → List (ℕ × ℚ) → List BaseHit
  | [], _ => []
  | hit :: rest, cooldowns =>
    match base_alert_step cooldowns hit with
    | (cooldowns', true) => hit :: run_alerts rest cooldowns'
    | (cooldowns', false) => run_alerts rest cooldowns'

/-! ## World entity query (`world.py`, `World.get_entity_at`) and the
click handler (`main.py`, `Game.handle_click`) -/

/-- `World.get_entity_at`: the first live entity (in entity-table
order) within `radius` of the position; the default radius is `0.5`. -/
def get_entity_at (entities : List EntLite) (x y : ℚ)
    (radius : ℚ := 1/2) : Option EntLite :=
  entities.find? fun e =>
    e.alive ∧ (e.x - x) * (e.x - x) + (e.y - y) * (e.y - y) ≤ radius * radius

/-- What `Game.handle_click` decides before any command dispatch. -/
inductive ClickOutcome
  | buildPlaced (building_type : String) (pos : ℚ × ℚ)
  | selected (entity_id : ℕ)
  | commandOrNothing
deriving Repr, DecidableEq

/-- The selection part of `Game.handle_click` at world position
`(wx, wy)`: build mode (with a worker as first selected entity) places
a building and returns; otherwise a clicked own-team (team 1) entity is
selected; everything else falls through to the command logic.
`first_selected` is the entity behind the first selected ID, if any. -/
def handle_click_select (build_mode : Bool) (build_type : Option String)
    (first_selected : Option EntLite) (entities : List EntLite)
    (wx wy : ℚ) : ClickOutcome :=
  let clicked_entity := get_entity_at entities wx wy
  if build_mode ∧ build_type.isSome ∧ first_selected.isSome then
    match build_type, first_selected with
    | some bt, some fs =>
        if fs.kind == "Worker" then ClickOutcome.buildPlaced bt (wx, wy)
        else ClickOutcome.commandOrNothing
    | _, _ => ClickOutcome.commandOrNothing
  else
    match clicked_entity with
    | some e =>
        if e.team = 1 then ClickOutcome.selected e.id
        else ClickOutcome.commandOrNothing
    | none => ClickOutcome.commandOrNothing

/-! ## Selection manager (`selection.py`, class `SelectionManager`) -/

/-- `SelectionManager.DRAG_THRESHOLD`. -/
def DRAG_THRESHOLD : ℚ := 1/2

/-- The drag-related state of `SelectionManager` (the persistent
`selected_ids` set is untouched by the drag protocol itself). -/
structure SelMgr where
  drag_start : Option (ℚ × ℚ)
  drag_current : Option (ℚ × ℚ)
  is_dragging : Bool
deriving Repr, DecidableEq

/-- `SelectionManager.start_drag`. -/
def start_drag (sm : SelMgr) (wx wy : ℚ) : SelMgr :=
  { sm with drag_start := some (wx, wy), drag_current := some (wx, wy),
            is_dragging := false }

/-- `SelectionManager.update_drag` (`sqrt` is the host `math.sqrt`). -/
def update_drag (sqrt : ℚ → ℚ) (sm : SelMgr) (wx wy : ℚ) : SelMgr :=
  match sm.drag_start with
  | none => sm
  | some s =>
    let sm := { sm with drag_current := some (wx, wy) }
    let dx := wx - s.1
    let dy := wy - s.2
    if DRAG_THRESHOLD < sqrt (dx * dx + dy * dy) then
      { sm with is_dragging := true }
    else sm

/-- `SelectionManager.end_drag`: the returned IDs (insertion order of
the entity table; the Python `set` holds the same IDs) and the cleared
manager state. -/
def end_drag (sm : SelMgr) (entities : List EntLite) (team : ℕ) :
    List ℕ × SelMgr :=
  let cleared : SelMgr :=
    { drag_start := none, drag_current := none, is_dragging := false }
  match sm.is_dragging, sm.drag_start, sm.drag_current with
  | true, some (x1, y1), some (x2, y2) =>
    let min_x := min x1 x2
    let max_x := max x1 x2
    let min_y := min y1 y2
    let max_y := max y1 y2
    let selected := (entities.filter fun e =>
      e.alive ∧ e.team = team ∧ e.hasSpeed ∧
        min_x ≤ e.x ∧ e.x ≤ max_x ∧ min_y ≤ e.y ∧ e.y ≤ max_y).map (·.id)
    (selected, cleared)
  | _, _, _ => ([], cleared)

/-- One full drag gesture: press at `(x1, y1)`, move to `(x2, y2)`,
release; returns the selected IDs and the post-gesture manager. -/
def drag_gesture (sqrt : ℚ → ℚ) (entities : List EntLite) (team : ℕ)
    (sm : SelMgr) (x1 y1 x2 y2 : ℚ) : List ℕ × SelMgr :=
  end_drag (update_drag sqrt (start_drag sm x1 y1) x2 y2) entities team

/-! ## Loop invariant of the A* search, and the concrete worlds the
theorems are evaluated on -/

/-- Concrete instantiation of `C7_queue_refuses_sixth` on a full
queue. -/
def buildingFull : Building :=
  ⟨1, 1, 5, 5, true, ["Worker", "Worker", "Worker", "Worker", "Worker"],
   0, none, false, 8⟩

/-- A building on its first production tick. -/
def buildingPoor : Building :=
  ⟨2, 1, 5, 5, true, ["Worker"], 0, none, false, 8⟩

/-- A worker delivering one load at its base. -/
def workerDelivering : WorkerE :=
  ⟨4, 1, 5, 5, true, 8, none, none, WState.returning, false, none⟩

/-- A soldier standing at (2, 2). -/
def entSoldier : EntLite := ⟨5, true, 1, "Soldier", 2, 2⟩

/-- A worker standing at (1, 0): within 1.5 tiles of the origin. -/
def entWorkerNear : EntLite := ⟨1, true, 1, "Worker", 1, 0⟩

/-- A worker standing exactly on the click position. -/
def entWorkerOn : EntLite := ⟨7, true, 1, "Worker", 3, 4⟩

/-- A live mineral patch 1.4 tiles from the origin. -/
def patchNear : MineralPatch := ⟨9, 7/5, 0, 100⟩

/-- A worker at the origin heading for `patchNear`. -/
def workerApproach : WorkerE :=
  ⟨3, 1, 0, 0, true, 0, some patchNear, none, WState.moving_to_mineral,
   false, none⟩

/-- A live mineral patch 1 tile from the origin. -/
def patchOn : MineralPatch := ⟨11, 1, 0, 50⟩

/-- A worker at the origin heading for `patchOn`. -/
def workerClose : WorkerE :=
  ⟨6, 1, 0, 0, true, 0, some patchOn, none, WState.moving_to_mineral,
   false, none⟩

/-- A 5×3 map whose bottom row (y = 2) is all rock. -/
def mapRockRow : GameMap :=
  ⟨5, 3, [[0, 0, 0, 0, 0], [0, 0, 0, 0, 0], [1, 1, 1, 1, 1]]⟩

/-- A base at (2, 0) one tick away from completing a worker. -/
def buildingSpawner : Building :=
  ⟨1, 1, 2, 0, true, ["Worker"], 0, none, false, 8⟩

/-- The loop invariant of the A* search: the start tile's g-score is
pinned at 0, all recorded g-scores are non-negative, and the start tile
is never given a parent in `came_from`. -/
def AStarInv (s : Tile) (st : AStarState) : Prop :=
  alookup st.g_score s = some 0 ∧ (∀ e ∈ st.g_score, 0 ≤ e.2) ∧
    ∀ e ∈ st.came_from, e.1 ≠ s

/-- A 7×5 map where the goal tile (5, 3) sits inside a 3×3 rock block:
every tile adjacent to the goal is unwalkable, and the nearest walkable
tile (the first the ring scan finds) is (3, 1), at Chebyshev
distance 2. -/
def mapRing : GameMap :=
  ⟨7, 5, [[0, 0, 0, 0, 0, 0, 0],
          [0, 0, 0, 0, 0, 0, 0],
          [0, 0, 0, 0, 1, 1, 1],
          [0, 0, 0, 0, 1, 1, 1],
          [0, 0, 0, 0, 1, 1, 1]]⟩

/-! ## Theorems -/

/-! ### C7: production queue bound -/

/-- C7: queuing a 6th item onto a full (five-element) production queue
returns `false` and leaves the building unchanged, and both queue
operations preserve `length ≤ 5`. -/
theorem C7_queue_refuses_sixth (b : Building) (u : String)
    (h5 : b.production_queue.length = 5) :
    (b.queue_production u).2 = false ∧ (b.queue_production u).1 = b ∧
    (∀ (b' : Building) (v : String), b'.production_queue.length ≤ 5 →
      (b'.queue_production v).1.production_queue.length ≤ 5 ∧
      b'.complete_production.1.production_queue.length ≤ 5) := by
  refine ⟨?_, ?_, ?_⟩
  · simp [Building.queue_production, MAX_QUEUE_SIZE, h5]
  · simp [Building.queue_production, MAX_QUEUE_SIZE, h5]
  · intro b' v hle
    constructor
    · by_cases hlt : b'.production_queue.length < MAX_QUEUE_SIZE
      · simp only [MAX_QUEUE_SIZE] at hlt
        simp only [Building.queue_production, MAX_QUEUE_SIZE, if_pos hlt,
          List.length_append, List.length_cons, List.length_nil]
        omega
      · simp only [Building.queue_production, if_neg hlt]
        exact hle
    · rcases hq : b'.production_queue with _ | ⟨t, rest⟩
      · simp [Building.complete_production, hq]
      · have : rest.length + 1 ≤ 5 := by simpa [hq] using hle
        simp only [Building.complete_production, hq]
        omega

theorem C7_witness :
    (buildingFull.queue_production "Worker").2 = false ∧
    (buildingFull.queue_production "Worker").1 = buildingFull :=
  ⟨(C7_queue_refuses_sixth buildingFull "Worker" rfl).1,
   (C7_queue_refuses_sixth buildingFull "Worker" rfl).2.1⟩

/-! ### C4: production with insufficient minerals -/

/-- C4: on the first tick of a queue item (`production_progress = 0`)
whose cost exceeds the team total, the production step sets
`waiting_for_minerals` and changes nothing else: no deduction, progress
stays `0`, queue untouched, no event, no spawn. -/
theorem C4_insufficient_minerals (cost : String → ℤ) (r dt : ℚ)
    (minerals : ℤ) (b : Building) (unit_type : String)
    (hhead : b.production_queue.head? = some unit_type)
    (hprog : b.production_progress = 0)
    (hpoor : minerals < cost unit_type) :
    production_step cost r dt minerals b =
      ⟨{ b with waiting_for_minerals := true }, minerals, [], []⟩ ∧
    (production_step cost r dt minerals b).building.production_queue =
      b.production_queue ∧
    (production_step cost r dt minerals b).building.production_progress
      = 0 := by
  have h : production_step cost r dt minerals b =
      ⟨{ b with waiting_for_minerals := true }, minerals, [], []⟩ := by
    simp [production_step, hhead, hprog, hpoor]
  exact ⟨h, by rw [h], by rw [h]; exact hprog⟩

theorem C4_witness :
    production_step (fun _ => 50) 0 (1/30) 10 buildingPoor =
      ⟨{ buildingPoor with waiting_for_minerals := true }, 10, [], []⟩ :=
  (C4_insufficient_minerals (fun _ => 50) 0 (1/30) 10 buildingPoor
    "Worker" rfl rfl (by decide)).1

/-! ### C6: fog cells never return to HIDDEN -/

theorem getD_map_row (g : FogGrid) (f : List ℕ → List ℕ) (y : ℕ)
    (hf : f [] = []) : (g.map f).getD y [] = f (g.getD y []) := by
  rw [List.getD_eq_getElem?_getD, List.getD_eq_getElem?_getD,
    List.getElem?_map]
  rcases h : g[y]? with _ | row
  · simp [hf]
  · simp

theorem cellAt_demote (g : FogGrid) (x y : ℕ) :
    cellAt (demoteVisible g) x y =
      if cellAt g x y = VISIBLE then EXPLORED else cellAt g x y := by
  unfold demoteVisible cellAt
  rw [getD_map_row _ _ _ rfl]
  generalize g.getD y [] = row
  rw [List.getD_eq_getElem?_getD, List.getD_eq_getElem?_getD,
    List.getElem?_map]
  rcases h : row[x]? with _ | c
  · simp [h, HIDDEN, VISIBLE]
  · simp [h]

theorem getD_set_or {α : Type} (l : List α) (i j : ℕ) (a d : α) :
    ((l.set i a).getD j d = a ∧ i = j) ∨
      (l.set i a).getD j d = l.getD j d := by
  by_cases hij : i = j
  · subst hij
    by_cases hlen : i < l.length
    · left
      refine ⟨?_, rfl⟩
      rw [List.getD_eq_getElem?_getD, List.getElem?_set_self hlen]
      rfl
    · right
      rw [List.set_eq_of_length_le (le_of_not_lt hlen)]
  · right
    rw [List.getD_eq_getElem?_getD, List.getElem?_set_ne hij,
      List.getD_eq_getElem?_getD]

theorem cellAt_setCell_or (g : FogGrid) (x y v x' y' : ℕ) :
    cellAt (setCell g x y v) x' y' = v ∨
      cellAt (setCell g x y v) x' y' = cellAt g x' y' := by
  unfold setCell cellAt
  rcases getD_set_or g y y' ((g.getD y []).set x v) [] with ⟨hrow, hy⟩ | hrow
  · subst hy
    rw [hrow]
    rcases getD_set_or (g.getD y []) x x' v HIDDEN with ⟨hc, _⟩ | hc
    · exact Or.inl hc
    · exact Or.inr (by rw [hc])
  · exact Or.inr (by rw [hrow])

theorem cellAt_foldl_or {β : Type} (f : FogGrid → β → FogGrid)
    (hf : ∀ g b x y, cellAt (f g b) x y = VISIBLE ∨
      cellAt (f g b) x y = cellAt g x y) :
    ∀ (l : List β) (g : FogGrid) (x y : ℕ),
      cellAt (l.foldl f g) x y = VISIBLE ∨
        cellAt (l.foldl f g) x y = cellAt g x y := by
  intro l
  induction l with
  | nil => intro g x y; exact Or.inr rfl
  | cons b rest ih =>
    intro g x y
    rcases ih (f g b) x y with h | h
    · exact Or.inl h
    · rcases hf g b x y with h2 | h2
      · exact Or.inl (h.trans h2)
      · exact Or.inr (h.trans h2)

theorem cellAt_revealTile_or (width height cx cy : ℤ) (v : ℕ)
    (g : FogGrid) (dx dy : ℤ) (x y : ℕ) :
    cellAt (revealTile width height cx cy v g dx dy) x y = VISIBLE ∨
      cellAt (revealTile width height cx cy v g dx dy) x y =
        cellAt g x y := by
  by_cases h1 : dx * dx + dy * dy ≤ (v : ℤ) * (v : ℤ)
  · by_cases h2 : 0 ≤ cx + dx ∧ cx + dx < width ∧ 0 ≤ cy + dy ∧
        cy + dy < height
    · simpa [revealTile, h1, h2] using
        cellAt_setCell_or g (cx + dx).toNat (cy + dy).toNat VISIBLE x y
    · simp [revealTile, h1, h2]
  · simp [revealTile, h1]

theorem cellAt_revealEntity_or (width height : ℤ) (g : FogGrid)
    (e : FogEntity) (x y : ℕ) :
    cellAt (revealEntity width height g e) x y = VISIBLE ∨
      cellAt (revealEntity width height g e) x y = cellAt g x y := by
  unfold revealEntity
  exact cellAt_foldl_or _
    (fun g dy x y => cellAt_foldl_or _
      (fun g dx x y => cellAt_revealTile_or width height _ _ _ g dx dy x y)
      _ g x y) _ g x y

theorem cellAt_update_visibility_or (width height : ℤ) (g : FogGrid)
    (es : List FogEntity) (x y : ℕ) :
    cellAt (update_visibility width height g es) x y = VISIBLE ∨
      cellAt (update_visibility width height g es) x y =
        cellAt (demoteVisible g) x y := by
  unfold update_visibility
  refine cellAt_foldl_or _ (fun g e x y => ?_) es (demoteVisible g) x y
  by_cases ha : e.alive
  · simpa [ha] using cellAt_revealEntity_or width height g e x y
  · simp [ha]

/-- C6: `update_visibility` never takes a cell back to `HIDDEN`: a cell
read as `HIDDEN` afterwards was `HIDDEN` before, and a cell that was
`VISIBLE` is afterwards `VISIBLE` or `EXPLORED`. -/
theorem C6_fog_monotone (width height : ℤ) (g : FogGrid)
    (es : List FogEntity) (x y : ℕ) :
    (cellAt (update_visibility width height g es) x y = HIDDEN →
      cellAt g x y = HIDDEN) ∧
    (cellAt g x y = VISIBLE →
      cellAt (update_visibility width height g es) x y = VISIBLE ∨
        cellAt (update_visibility width height g es) x y = EXPLORED) := by
  constructor
  · intro hafter
    rcases cellAt_update_visibility_or width height g es x y with h | h
    · rw [hafter] at h
      exact absurd h (by decide)
    · rw [hafter] at h
      rw [cellAt_demote] at h
      by_cases hv : cellAt g x y = VISIBLE
      · rw [if_pos hv] at h
        exact absurd h (by decide)
      · rw [if_neg hv] at h
        exact h.symm
  · intro hbefore
    rcases cellAt_update_visibility_or width height g es x y with h | h
    · exact Or.inl h
    · rw [cellAt_demote, if_pos hbefore] at h
      exact Or.inr h

/-- Concrete instantiation of `C6_fog_monotone`: a 1×1 grid whose only
cell is `VISIBLE`, updated with no entities in sight, degrades to
`EXPLORED` and in particular is not `HIDDEN`. -/
theorem C6_witness :
    cellAt (update_visibility 1 1 [[VISIBLE]] []) 0 0 = VISIBLE ∨
      cellAt (update_visibility 1 1 [[VISIBLE]] []) 0 0 = EXPLORED :=
  (C6_fog_monotone 1 1 [[VISIBLE]] [] 0 0).2 rfl

/-! ### C2: team mineral totals stay non-negative -/

theorem production_minerals_cases (cost : String → ℤ) (r dt : ℚ)
    (minerals : ℤ) (b : Building) :
    (production_step cost r dt minerals b).minerals = minerals ∨
      ((production_step cost r dt minerals b).minerals =
        minerals - cost (b.production_queue.headD "") ∧
       cost (b.production_queue.headD "") ≤ minerals) := by
  rcases hh : b.production_queue.head? with _ | ut
  · left
    simp [production_step, hh]
  · have hd : b.production_queue.headD "" = ut := by
      rw [List.headD_eq_head?_getD, hh]
      rfl
    rw [hd]
    by_cases hprog : b.production_progress = 0
    · by_cases hpoor : minerals < cost ut
      · left
        simp [production_step, hh, hprog, hpoor]
      · right
        refine ⟨?_, by omega⟩
        simp only [production_step, hh, hprog, if_pos rfl, if_neg hpoor,
          if_true]
        split
        · rfl
        · rfl
    · left
      simp only [production_step, hh, if_neg hprog]
      split
      · rfl
      · rfl

theorem building_minerals_cases (sqrt : ℚ → ℚ) (bcost : String → ℤ)
    (bbt : String → ℚ) (m : Option GameMap) (others : List EntLite)
    (dt : ℚ) (minerals : ℤ) (timer wc : Option ℚ) (w : WorkerE) :
    (building_placement_step sqrt bcost bbt m others dt minerals timer wc
        w).minerals = minerals ∨
      ∃ bt bx byy, w.build_target = some (bt, bx, byy) ∧
        (building_placement_step sqrt bcost bbt m others dt minerals timer
          wc w).minerals = minerals - bcost bt ∧
        bcost bt ≤ minerals := by
  rcases htgt : w.build_target with _ | ⟨bt, bx, byy⟩
  · left
    simp [building_placement_step, htgt]
  · rcases m with _ | gm
    · left
      simp [building_placement_step, htgt]
    · simp only [building_placement_step, htgt]
      split
      · exact Or.inl rfl
      · split
        · exact Or.inl rfl
        · split
          · exact Or.inl rfl
          · split
            · split
              · exact Or.inl rfl
              · exact Or.inl rfl
            · split
              · exact Or.inl rfl
              · split
                · exact Or.inr ⟨bt, bx, byy, rfl, rfl, by omega⟩
                · exact Or.inl rfl

theorem process_worker_minerals (base : ℚ × ℚ) (dt : ℚ) (minerals : ℤ)
    (timer : Option ℚ) (w : WorkerE) (h0 : 0 ≤ minerals)
    (hc : 0 ≤ w.carrying) :
    0 ≤ (process_worker base dt minerals timer w).minerals ∧
    0 ≤ (process_worker base dt minerals timer w).worker.carrying := by
  cases hs : w.state with
  | idle =>
    rcases ht : w.gather_target with _ | t
    · simp only [process_worker, hs, ht]
      split
      · exact ⟨h0, hc⟩
      · exact ⟨h0, hc⟩
    · simp only [process_worker, hs, ht]
      exact ⟨h0, hc⟩
  | moving_to_mineral =>
    rcases ht : w.gather_target with _ | t
    · simp only [process_worker, hs, ht]
      exact ⟨h0, hc⟩
    · simp only [process_worker, hs, ht]
      split
      · exact ⟨h0, hc⟩
      · split
        · exact ⟨h0, hc⟩
        · exact ⟨h0, hc⟩
  | gathering =>
    rcases ht : w.gather_target with _ | t
    · simp only [process_worker, hs, ht]
      exact ⟨h0, hc⟩
    · simp only [process_worker, hs, ht]
      split
      · exact ⟨h0, hc⟩
      · split
        · refine ⟨h0, ?_⟩
          have hdep : ¬ t.depleted = true := by assumption
          have hpos : 0 < t.minerals := by
            simpa [MineralPatch.depleted, not_le] using hdep
          simp only []
          exact le_min (by norm_num [GATHER_AMOUNT]) (le_of_lt hpos)
        · exact ⟨h0, hc⟩
  | returning =>
    simp only [process_worker, hs]
    split
    · constructor
      · have : 0 ≤ minerals + w.carrying := by omega
        split
        · split
          · exact this
          · exact this
        · exact this
      · split
        · split
          · exact le_refl 0
          · exact le_refl 0
        · exact le_refl 0
    · exact ⟨h0, hc⟩
  | building =>
    simp only [process_worker, hs]
    exact ⟨h0, hc⟩

/-- C2: the mineral total stays non-negative across every operation
that touches it — the production start deduction, the
building-placement deduction and the worker resource delivery — and
each deduction happens only when the current total covers the cost. -/
theorem C2_minerals_nonneg (cost : String → ℤ) (r dt : ℚ) (minerals : ℤ)
    (b : Building) (sqrt : ℚ → ℚ) (bcost : String → ℤ) (bbt : String → ℚ)
    (m : Option GameMap) (others : List EntLite) (timer wc : Option ℚ)
    (w : WorkerE) (base : ℚ × ℚ) (rtimer : Option ℚ)
    (h0 : 0 ≤ minerals) (hc : 0 ≤ w.carrying) :
    (0 ≤ (production_step cost r dt minerals b).minerals ∧
      ((production_step cost r dt minerals b).minerals ≠ minerals →
        cost (b.production_queue.headD "") ≤ minerals)) ∧
    (0 ≤ (building_placement_step sqrt bcost bbt m others dt minerals
        timer wc w).minerals ∧
      ((building_placement_step sqrt bcost bbt m others dt minerals timer
          wc w).minerals ≠ minerals →
        ∃ bt bx byy, w.build_target = some (bt, bx, byy) ∧
          bcost bt ≤ minerals)) ∧
    0 ≤ (process_worker base dt minerals rtimer w).minerals := by
  refine ⟨⟨?_, ?_⟩, ⟨?_, ?_⟩, ?_⟩
  · rcases production_minerals_cases cost r dt minerals b with h | ⟨h, hle⟩
    · omega
    · omega
  · intro hne
    rcases production_minerals_cases cost r dt minerals b with h | ⟨h, hle⟩
    · exact absurd h hne
    · exact hle
  · rcases building_minerals_cases sqrt bcost bbt m others dt minerals
      timer wc w with h | ⟨bt, bx, byy, _, h, hle⟩
    · omega
    · omega
  · intro hne
    rcases building_minerals_cases sqrt bcost bbt m others dt minerals
      timer wc w with h | ⟨bt, bx, byy, htgt, h, hle⟩
    · exact absurd h hne
    · exact ⟨bt, bx, byy, htgt, hle⟩
  · exact (process_worker_minerals base dt minerals rtimer w h0 hc).1

theorem C2_witness :
    0 ≤ (process_worker (5, 5) (1/30) 0 none workerDelivering).minerals :=
  (C2_minerals_nonneg (fun _ => 50) 0 (1/30) 0 buildingPoor (fun q => q)
    (fun _ => 100) (fun _ => 5) none [] none none workerDelivering (5, 5)
    none (by decide) (by decide)).2.2

/-! ### C8: BaseUnderAttack rate limiting -/

theorem alookup_aset_same {α β : Type} [DecidableEq α]
    (l : List (α × β)) (k : α) (v : β) :
    alookup (aset l k v) k = some v := by
  simp [alookup, aset]

theorem alookup_aset_ne {α β : Type} [DecidableEq α]
    (l : List (α × β)) (k k' : α) (v : β) (h : k ≠ k') :
    alookup (aset l k v) k' = alookup l k' := by
  simp [alookup, aset, List.find?_cons, h]

theorem run_alerts_gap (b : ℕ) : ∀ (trace : List BaseHit)
    (cooldowns : List (ℕ × ℚ)),
    (((run_alerts trace cooldowns).filter
        fun h => h.base_id == b).Chain' fun p q => p.time + 10 ≤ q.time) ∧
    (∀ p, ((run_alerts trace cooldowns).filter
        fun h => h.base_id == b).head? = some p →
      (alookup cooldowns b).getD 0 + 10 ≤ p.time) := by
  intro trace
  induction trace with
  | nil =>
    intro cd
    exact ⟨List.chain'_nil, fun p hp => by simp [run_alerts] at hp⟩
  | cons hit rest ih =>
    intro cd
    by_cases hpub : 10 ≤ hit.time - (alookup cd hit.base_id).getD 0
    · have hrun : run_alerts (hit :: rest) cd =
          hit :: run_alerts rest (aset cd hit.base_id hit.time) := by
        simp [run_alerts, base_alert_step, hpub]
      by_cases hbase : hit.base_id = b
      · have hfil : (run_alerts (hit :: rest) cd).filter
            (fun h => h.base_id == b) =
            hit :: (run_alerts rest
              (aset cd hit.base_id hit.time)).filter
                (fun h => h.base_id == b) := by
          rw [hrun]
          simp [List.filter_cons, hbase]
        rcases ih (aset cd hit.base_id hit.time) with ⟨ihchain, ihhead⟩
        constructor
        · rw [hfil]
          refine List.chain'_cons'.mpr ⟨?_, ihchain⟩
          intro q hq
          have := ihhead q hq
          rw [hbase, alookup_aset_same] at this
          simpa using this
        · intro p hp
          rw [hfil] at hp
          simp only [List.head?_cons, Option.some.injEq] at hp
          subst hp
          rw [← hbase]
          linarith [hpub]
      · have hfil : (run_alerts (hit :: rest) cd).filter
            (fun h => h.base_id == b) =
            (run_alerts rest
              (aset cd hit.base_id hit.time)).filter
                (fun h => h.base_id == b) := by
          rw [hrun]
          simp [List.filter_cons, hbase]
        rcases ih (aset cd hit.base_id hit.time) with ⟨ihchain, ihhead⟩
        refine ⟨by rw [hfil]; exact ihchain, ?_⟩
        intro p hp
        rw [hfil] at hp
        have := ihhead p hp
        rwa [alookup_aset_ne _ _ _ _ hbase] at this
    · have hrun : run_alerts (hit :: rest) cd = run_alerts rest cd := by
        simp [run_alerts, base_alert_step, hpub]
      rw [hrun]
      exact ih cd

/-- C8: in any sequence of applied damages on bases, the hits for which
a `BaseUnderAttackEvent` is published are, per base, at least 10
seconds of game time apart — regardless of which (or how many distinct)
soldiers delivered the damage. -/
theorem C8_base_alert_rate_limited (trace : List BaseHit) (b : ℕ) :
    ((run_alerts trace []).filter fun h => h.base_id == b).Pairwise
      fun p q => p.time + 10 ≤ q.time := by
  haveI : IsTrans BaseHit fun p q => p.time + 10 ≤ q.time :=
    ⟨fun p q r h1 h2 => by linarith⟩
  exact List.chain'_iff_pairwise.mp (run_alerts_gap b trace []).1

/-! ### C10: drag selection is idempotent and selects exactly the
living own-team units inside the rectangle -/

theorem update_drag_start (sqrt : ℚ → ℚ) (sm : SelMgr) (x1 y1 x2 y2 : ℚ) :
    (update_drag sqrt (start_drag sm x1 y1) x2 y2).drag_start =
      some (x1, y1) := by
  simp only [update_drag, start_drag]
  split <;> rfl

theorem update_drag_current (sqrt : ℚ → ℚ) (sm : SelMgr)
    (x1 y1 x2 y2 : ℚ) :
    (update_drag sqrt (start_drag sm x1 y1) x2 y2).drag_current =
      some (x2, y2) := by
  simp only [update_drag, start_drag]
  split <;> rfl

/-- C10: for a fixed world, team and rectangle, repeating the drag
gesture (from whatever state the first gesture left behind) returns the
identical ID list, and every returned ID belongs to a living own-team
unit — a `Worker` or `Soldier`, never a building — whose position lies
inside the axis-aligned rectangle spanned by the press and release
points. -/
theorem C10_drag_selection (sqrt : ℚ → ℚ) (entities : List EntLite)
    (team : ℕ) (sm : SelMgr) (x1 y1 x2 y2 : ℚ) :
    (drag_gesture sqrt entities team sm x1 y1 x2 y2).1 =
      (drag_gesture sqrt entities team
        (drag_gesture sqrt entities team sm x1 y1 x2 y2).2
        x1 y1 x2 y2).1 ∧
    ∀ i ∈ (drag_gesture sqrt entities team sm x1 y1 x2 y2).1,
      ∃ e ∈ entities, e.id = i ∧ e.alive = true ∧ e.team = team ∧
        (e.kind = "Worker" ∨ e.kind = "Soldier") ∧
        min x1 x2 ≤ e.x ∧ e.x ≤ max x1 x2 ∧
        min y1 y2 ≤ e.y ∧ e.y ≤ max y1 y2 := by
  constructor
  · have hstart : ∀ sm' : SelMgr, start_drag sm' x1 y1 =
        ⟨some (x1, y1), some (x1, y1), false⟩ := fun _ => rfl
    unfold drag_gesture
    rw [hstart, hstart]
  · intro i hi
    unfold drag_gesture end_drag at hi
    rcases hdrag : (update_drag sqrt (start_drag sm x1 y1) x2 y2).is_dragging
    all_goals rcases hds : (update_drag sqrt (start_drag sm x1 y1)
      x2 y2).drag_start with _ | ⟨sx, sy⟩
    all_goals rcases hdc : (update_drag sqrt (start_drag sm x1 y1)
      x2 y2).drag_current with _ | ⟨cx, cy⟩
    all_goals rw [hdrag, hds, hdc] at hi
    all_goals simp only [List.mem_map, List.mem_filter] at hi
    case right.true.some.mk.some.mk =>
      obtain ⟨e, ⟨hmem, hcond⟩, hid⟩ := hi
      rw [update_drag_start] at hds
      rw [update_drag_current] at hdc
      simp only [Option.some.injEq, Prod.mk.injEq] at hds hdc
      obtain ⟨rfl, rfl⟩ := hds
      obtain ⟨rfl, rfl⟩ := hdc
      refine ⟨e, hmem, hid, ?_⟩
      have hcond' := of_decide_eq_true hcond
      obtain ⟨ha, ht, hsp, h1, h2, h3, h4⟩ := hcond'
      exact ⟨ha, ht, by simpa [EntLite.hasSpeed] using hsp, h1, h2, h3, h4⟩
    all_goals simp at hi

theorem C10_witness :
    ∃ e ∈ [entSoldier], e.id = 5 ∧ e.alive = true ∧ e.team = 1 ∧
      (e.kind = "Worker" ∨ e.kind = "Soldier") ∧
      min 0 4 ≤ e.x ∧ e.x ≤ max 0 4 ∧
      min 0 4 ≤ e.y ∧ e.y ≤ max 0 4 :=
  (C10_drag_selection (fun q => q) [entSoldier] 1 ⟨none, none, false⟩
    0 0 4 4).2 5 (by with_unfolding_all decide)

/-! ### C9: click-selection radius -/

/-- C9 counterexample: a click at the origin with a live own-team
entity 1 tile away — within 1.5 tiles — selects nothing, because
`handle_click` looks entities up with `get_entity_at`'s default radius
of 0.5 tiles. -/
theorem C9_counterexample :
    handle_click_select false none none [entWorkerNear] 0 0 =
      ClickOutcome.commandOrNothing ∧
    (entWorkerNear.x - 0) * (entWorkerNear.x - 0) +
        (entWorkerNear.y - 0) * (entWorkerNear.y - 0) ≤ (3/2) * (3/2) ∧
    entWorkerNear.alive = true ∧ entWorkerNear.team = 1 := by
  with_unfolding_all decide

/-- C9 (amended): a bare click selects an entity iff the first live
entity within 0.5 tiles of the click (in entity-table order) belongs to
team 1; in particular any selected entity lies within 0.5 tiles of the
click — not 1.5. -/
theorem C9_click_selection (build_mode : Bool) (build_type : Option String)
    (first_selected : Option EntLite) (entities : List EntLite)
    (wx wy : ℚ) (i : ℕ) :
    (handle_click_select build_mode build_type first_selected entities
        wx wy = ClickOutcome.selected i →
      ∃ e ∈ entities, e.id = i ∧ e.alive = true ∧ e.team = 1 ∧
        (e.x - wx) * (e.x - wx) + (e.y - wy) * (e.y - wy) ≤
          (1/2) * (1/2)) ∧
    (∀ e, ¬ (build_mode ∧ build_type.isSome ∧ first_selected.isSome) →
      get_entity_at entities wx wy = some e → e.team = 1 →
      handle_click_select build_mode build_type first_selected entities
        wx wy = ClickOutcome.selected e.id) := by
  constructor
  · intro hsel
    simp only [handle_click_select] at hsel
    split at hsel
    · split at hsel
      · split at hsel
        · exact absurd hsel (by simp)
        · exact absurd hsel (by simp)
      · exact absurd hsel (by simp)
    · rcases hget : get_entity_at entities wx wy with _ | e
      all_goals rw [hget] at hsel
      · exact absurd hsel (by simp)
      · simp only [] at hsel
        split at hsel
        · have hei : e.id = i := by
            simpa using hsel
          have hteam : e.team = 1 := by assumption
          have hmem := List.mem_of_find?_eq_some hget
          have hprop := List.find?_some hget
          have hprop' := of_decide_eq_true hprop
          exact ⟨e, hmem, hei, hprop'.1, hteam, hprop'.2⟩
        · exact absurd hsel (by simp)
  · intro e hbm hget hteam
    simp only [handle_click_select]
    rw [if_neg hbm, hget]
    simp [hteam]

theorem C9_witness :
    handle_click_select false none none [entWorkerOn] 3 4 =
      ClickOutcome.selected 7 :=
  (C9_click_selection false none none [entWorkerOn] 3 4 7).2 entWorkerOn
    (by simp) (by with_unfolding_all decide) rfl

/-! ### C5: the gather-approach threshold -/

/-- C5 counterexample: a worker 1.4 tiles from its live gather target —
within 1.5 tiles of it — does **not** transition to `gathering`,
because the code compares the squared distance against `1.5`. -/
theorem C5_counterexample :
    (process_worker (0, 5) (1/30) 0 none workerApproach).worker.state =
      WState.moving_to_mineral ∧
    (process_worker (0, 5) (1/30) 0 none workerApproach).events = [] ∧
    (patchNear.x - workerApproach.x) * (patchNear.x - workerApproach.x) +
        (patchNear.y - workerApproach.y) *
          (patchNear.y - workerApproach.y) ≤ (3/2) * (3/2) ∧
    patchNear.depleted = false ∧
    workerApproach.gather_target = some patchNear := by
  with_unfolding_all decide

/-- C5 (amended): a worker in `moving_to_mineral` with a non-depleted
gather target transitions to `gathering` exactly when the **squared**
distance to the patch is below `1.5` (i.e. distance < √1.5 ≈ 1.22
tiles, not 1.5 tiles); on that transition the gather timer starts at 0
and a `GatheringStarted` event is published, and otherwise the step
changes nothing. -/
theorem C5_gather_transition (base : ℚ × ℚ) (dt : ℚ) (minerals : ℤ)
    (timer : Option ℚ) (w : WorkerE) (t : MineralPatch)
    (hs : w.state = WState.moving_to_mineral)
    (ht : w.gather_target = some t) (hd : t.depleted = false) :
    ((process_worker base dt minerals timer w).worker.state =
        WState.gathering ↔
      (t.x - w.x) * (t.x - w.x) + (t.y - w.y) * (t.y - w.y) < 3/2) ∧
    ((t.x - w.x) * (t.x - w.x) + (t.y - w.y) * (t.y - w.y) < 3/2 →
      process_worker base dt minerals timer w =
        ⟨{ w with state := WState.gathering, destination := none },
         minerals, some 0, [Ev.gatheringStarted w.id w.team]⟩) ∧
    (¬ (t.x - w.x) * (t.x - w.x) + (t.y - w.y) * (t.y - w.y) < 3/2 →
      process_worker base dt minerals timer w =
        ⟨w, minerals, timer, []⟩) := by
  have hred : process_worker base dt minerals timer w =
      if (t.x - w.x) * (t.x - w.x) + (t.y - w.y) * (t.y - w.y) < 3/2 then
        ⟨{ w with state := WState.gathering, destination := none },
         minerals, some 0, [Ev.gatheringStarted w.id w.team]⟩
      else ⟨w, minerals, timer, []⟩ := by
    simp only [process_worker, hs, ht, hd]
    rfl
  rw [hred]
  by_cases hlt :
      (t.x - w.x) * (t.x - w.x) + (t.y - w.y) * (t.y - w.y) < 3/2
  · rw [if_pos hlt]
    exact ⟨⟨fun _ => hlt, fun _ => rfl⟩, fun _ => rfl,
      fun h => absurd hlt h⟩
  · rw [if_neg hlt]
    refine ⟨⟨fun hgather => ?_, fun h => absurd h hlt⟩,
      fun h => absurd h hlt, fun _ => rfl⟩
    rw [hs] at hgather
    exact absurd hgather (by decide)

theorem C5_witness :
    (process_worker (0, 5) (1/30) 0 none workerClose).worker.state =
      WState.gathering :=
  ((C5_gather_transition (0, 5) (1/30) 0 none workerClose patchOn rfl rfl
    (by with_unfolding_all decide)).1).mpr (by with_unfolding_all decide)

/-! ### C1: walkability of entity tiles -/

theorem production_spawns (cost : String → ℤ) (r dt : ℚ) (minerals : ℤ)
    (b : Building) :
    (production_step cost r dt minerals b).spawns = [] ∨
      ∃ ut, (production_step cost r dt minerals b).spawns =
        [⟨ut, b.team, (b.x + r, b.y + 2)⟩] := by
  rcases hh : b.production_queue with _ | ⟨ut, rest⟩
  · left
    simp [production_step, hh]
  · by_cases hprog : b.production_progress = 0
    · by_cases hpoor : minerals < cost ut
      · left
        simp [production_step, hh, hprog, hpoor]
      · by_cases hfin : (1 : ℚ) ≤ dt / b.build_time
        · right
          refine ⟨ut, ?_⟩
          simp [production_step, hh, hprog, hpoor, hfin,
            Building.complete_production]
        · left
          simp [production_step, hh, hprog, hpoor, hfin]
    · by_cases hfin : (1 : ℚ) ≤ b.production_progress + dt / b.build_time
      · right
        refine ⟨ut, ?_⟩
        simp [production_step, hh, hprog, hfin,
          Building.complete_production]
      · left
        simp [production_step, hh, hprog, hfin]

/-- C1 counterexample: a production completion spawns the new worker at
`(building.x + offset, building.y + 2)` with no walkability check; with
the building at (2, 0) on `mapRockRow` (and spawn offset 0 ∈ [-1, 1])
the unit lands on tile (2, 2), which is rock — so after this tick a
live entity stands on an unwalkable tile. -/
theorem C1_counterexample :
    (production_step (fun _ => 50) 0 8 100 buildingSpawner).spawns =
      [⟨"Worker", 1, (2, 2)⟩] ∧
    mapRockRow.is_walkable ⌊(2 : ℚ)⌋ ⌊(2 : ℚ)⌋ = false ∧
    ((-1 : ℚ) ≤ 0 ∧ (0 : ℚ) ≤ 1) := by
  with_unfolding_all decide

/-- C1 (amended): the movement step either leaves a unit's position
unchanged or moves it to a position whose (truncated) tile passes the
map's walkability check; units spawned by the production system,
however, are placed at `(building.x + r, building.y + 2)` with no
walkability check at all, so the all-entities-on-walkable-tiles
invariant holds for movement but can be broken by a spawn. -/
theorem C1_movement_preserves_walkability (sqrt : ℚ → ℚ) (m : GameMap)
    (fuel : ℕ) (dt : ℚ) (u : MUnit) :
    (((movement_step sqrt m fuel dt u).x = u.x ∧
        (movement_step sqrt m fuel dt u).y = u.y) ∨
      m.is_walkable (pyInt (movement_step sqrt m fuel dt u).x)
        (pyInt (movement_step sqrt m fuel dt u).y) = true) ∧
    (∀ (cost : String → ℤ) (r : ℚ) (minerals : ℤ) (b : Building)
        (s : SpawnRec),
      s ∈ (production_step cost r dt minerals b).spawns →
        s.pos = (b.x + r, b.y + 2)) := by
  constructor
  · unfold movement_step
    rcases hp : u.path with _ | ⟨wp, rest⟩
    · rcases hd : u.destination with _ | dest
      · exact Or.inl ⟨rfl, rfl⟩
      · dsimp only
        split
        · exact Or.inl ⟨rfl, rfl⟩
        · split
          · exact Or.inl ⟨rfl, rfl⟩
          · exact Or.inl ⟨rfl, rfl⟩
    · dsimp only
      split
      · exact Or.inl ⟨rfl, rfl⟩
      · split
        · split
          · rename_i hwalk
            right
            unfold mIsWalkable at hwalk
            exact hwalk
          · rcases hd : u.destination with _ | dest
            · exact Or.inl ⟨rfl, rfl⟩
            · exact Or.inl ⟨rfl, rfl⟩
        · exact Or.inl ⟨rfl, rfl⟩
  · intro cost r minerals b s hs
    rcases production_spawns cost r dt minerals b with h | ⟨ut, h⟩
    · rw [h] at hs
      exact absurd hs (by simp)
    · rw [h] at hs
      rw [List.mem_singleton] at hs
      rw [hs]

theorem C1_witness :
    (⟨"Worker", (1 : ℕ), ((2 : ℚ), (2 : ℚ))⟩ : SpawnRec).pos =
      (buildingSpawner.x + 0, buildingSpawner.y + 2) :=
  (C1_movement_preserves_walkability (fun q => q) mapRockRow 1 8
    ⟨1, 1, 2, 0, 1, true, [], none⟩).2 (fun _ => 50) 0 100
    buildingSpawner ⟨"Worker", 1, (2, 2)⟩ (by with_unfolding_all decide)

/-! ### C3: what the returned path ends at -/

theorem rangeZ_mem {lo hi x : ℤ} (h : x ∈ rangeZ lo hi) :
    lo ≤ x ∧ x ≤ hi := by
  unfold rangeZ at h
  rcases List.mem_map.mp h with ⟨i, hi_mem, hx⟩
  have hilt : i < (hi - lo + 1).toNat := List.mem_range.mp hi_mem
  subst hx
  omega

theorem find_nearest_walkable_spec (m : GameMap) (pos g' : Tile)
    (h : find_nearest_walkable m pos = some g') :
    m.is_walkable g'.1 g'.2 = true ∧
      |g'.1 - pos.1| ≤ 9 ∧ |g'.2 - pos.2| ≤ 9 := by
  unfold find_nearest_walkable at h
  rcases List.exists_of_findSome?_eq_some h with ⟨radius, hr_mem, hr⟩
  rcases List.exists_of_findSome?_eq_some hr with ⟨d, hd_mem, hd⟩
  have hr9 : radius ≤ 9 := (rangeZ_mem hr_mem).2
  have hr1 : 1 ≤ radius := (rangeZ_mem hr_mem).1
  rcases List.mem_flatMap.mp hd_mem with ⟨dx, hdx_mem, hdx⟩
  rcases List.mem_map.mp hdx with ⟨dy, hdy_mem, rfl⟩
  have hdxb := rangeZ_mem hdx_mem
  have hdyb := rangeZ_mem hdy_mem
  by_cases hring : |dx| = radius ∨ |dy| = radius
  · rw [if_pos hring] at hd
    by_cases hwalk : m.is_walkable (pos.1 + dx) (pos.2 + dy) = true
    · simp only [hwalk, if_true, Option.some.injEq] at hd
      subst hd
      refine ⟨hwalk, ?_, ?_⟩
      · show |pos.1 + dx - pos.1| ≤ 9
        have h2 : pos.1 + dx - pos.1 = dx := by ring
        rw [h2]
        have hd9 : |dx| ≤ radius := abs_le.mpr ⟨hdxb.1, hdxb.2⟩
        exact le_trans hd9 hr9
      · show |pos.2 + dy - pos.2| ≤ 9
        have h2 : pos.2 + dy - pos.2 = dy := by ring
        rw [h2]
        have hd9 : |dy| ≤ radius := abs_le.mpr ⟨hdyb.1, hdyb.2⟩
        exact le_trans hd9 hr9
    · rw [if_neg hwalk] at hd
      exact absurd hd (by simp)
  · rw [if_neg hring] at hd
    exact absurd hd (by simp)

theorem buildChain_head (came_from : List (Tile × Tile)) :
    ∀ (fuel : ℕ) (c : Tile) (l : List Tile),
      buildChain came_from fuel c = some l → l.head? = some c := by
  intro fuel
  induction fuel with
  | zero => intro c l h; exact absurd h (by simp [buildChain])
  | succ n ih =>
    intro c l h
    unfold buildChain at h
    split at h
    · simp only [Option.some.injEq] at h
      subst h
      rfl
    · rename_i parent hcf
      rcases hrec : buildChain came_from n parent with _ | l'
      · rw [hrec] at h
        exact absurd h (by simp)
      · rw [hrec] at h
        simp only [Option.map_some', Option.some.injEq] at h
        subst h
        rfl

theorem buildChain_dropLast_keys (came_from : List (Tile × Tile)) :
    ∀ (fuel : ℕ) (c : Tile) (l : List Tile),
      buildChain came_from fuel c = some l →
      ∀ x ∈ l.dropLast, (alookup came_from x).isSome := by
  intro fuel
  induction fuel with
  | zero => intro c l h; exact absurd h (by simp [buildChain])
  | succ n ih =>
    intro c l h x hx
    unfold buildChain at h
    split at h
    · simp only [Option.some.injEq] at h
      subst h
      simp at hx
    · rename_i parent hcf
      rcases hrec : buildChain came_from n parent with _ | l'
      · rw [hrec] at h
        exact absurd h (by simp)
      · rw [hrec] at h
        simp only [Option.map_some', Option.some.injEq] at h
        subst h
        have hl' : l' ≠ [] := by
          intro hnil
          rw [hnil] at hrec
          have := buildChain_head came_from n parent [] hrec
          simp at this
        rw [List.dropLast_cons_of_ne_nil hl'] at hx
        rcases List.mem_cons.mp hx with rfl | hx'
        · rw [hcf]
          rfl
        · exact ih parent l' hrec x hx'

theorem tail_getLast {α : Type} (L : List α) (h : L.tail ≠ []) :
    L.tail.getLast? = L.getLast? := by
  rcases L with _ | ⟨a, t⟩
  · simp at h
  · rcases t with _ | ⟨b, t'⟩
    · simp at h
    · simp only [List.tail_cons]
      exact List.getLast?_cons_cons.symm

theorem reconstruct_path_spec (came_from : List (Tile × Tile))
    (fuel : ℕ) (c s : Tile) (p : List Tile)
    (h : reconstruct_path came_from fuel c = some p)
    (hs : ∀ e ∈ came_from, e.1 ≠ s) :
    (p ≠ [] → p.getLast? = some c) ∧ s ∉ p := by
  unfold reconstruct_path at h
  rcases hchain : buildChain came_from fuel c with _ | l
  · rw [hchain] at h
    exact absurd h (by simp)
  · rw [hchain] at h
    simp only [Option.map_some', Option.some.injEq] at h
    subst h
    constructor
    · intro hne
      rw [tail_getLast _ hne, List.getLast?_reverse]
      exact buildChain_head came_from fuel c l hchain
    · intro hmem
      rw [List.tail_reverse, List.mem_reverse] at hmem
      have := buildChain_dropLast_keys came_from fuel c l hchain s hmem
      rcases hfind : alookup came_from s with _ | v
      · rw [hfind] at this
        exact absurd this (by simp)
      · unfold alookup at hfind
        rcases hf : came_from.find? fun e => e.1 = s with _ | entry
        · rw [hf] at hfind
          exact absurd hfind (by simp)
        · have hement := List.mem_of_find?_eq_some hf
          have hprop0 := List.find?_some hf
          simp only [decide_eq_true_eq] at hprop0
          exact absurd hprop0 (hs entry hement)

theorem DIRECTIONS_cost_pos : ∀ dc ∈ DIRECTIONS, 0 < dc.2 := by
  intro dc h
  simp only [DIRECTIONS, List.mem_cons, List.not_mem_nil, or_false] at h
  rcases h with rfl | rfl | rfl | rfl | rfl | rfl | rfl | rfl <;> norm_num

theorem alookup_getD_nonneg {l : List (Tile × ℚ)} {k : Tile}
    (h : ∀ e ∈ l, 0 ≤ e.2) : 0 ≤ (alookup l k).getD 0 := by
  unfold alookup
  rcases hf : l.find? fun p => p.1 = k with _ | e
  · rw [hf]
    simp
  · rw [hf]
    simp only [Option.map_some', Option.getD_some]
    exact h e (List.mem_of_find?_eq_some hf)

theorem expandDir_eq (m : GameMap) (goal current : Tile)
    (st : AStarState) (dc : Tile × ℚ) :
    expandDir m goal current st dc =
      if ¬ m.is_walkable (current.1 + dc.1.1) (current.2 + dc.1.2) = true
      then st
      else
        if (alookup st.g_score
              (current.1 + dc.1.1, current.2 + dc.1.2)).isNone = true ∨
            (alookup st.g_score current).getD 0 + dc.2 <
              (alookup st.g_score
                (current.1 + dc.1.1, current.2 + dc.1.2)).getD 0 then
          { open_set := st.open_set ++
              [((alookup st.g_score current).getD 0 + dc.2 +
                  heuristic (current.1 + dc.1.1, current.2 + dc.1.2) goal,
                st.counter + 1,
                (current.1 + dc.1.1, current.2 + dc.1.2))]
            came_from := aset st.came_from
              (current.1 + dc.1.1, current.2 + dc.1.2) current
            g_score := aset st.g_score
              (current.1 + dc.1.1, current.2 + dc.1.2)
              ((alookup st.g_score current).getD 0 + dc.2)
            counter := st.counter + 1 }
        else st := rfl

theorem astarLoop_succ (m : GameMap) (goal : Tile) (fuel : ℕ)
    (st : AStarState) :
    astarLoop m goal (fuel + 1) st =
      match popMin st.open_set with
      | none => some []
      | some (entry, rest) =>
        if entry.2.2 = goal then
          reconstruct_path st.came_from (fuel + 1) entry.2.2
        else
          astarLoop m goal fuel
            (DIRECTIONS.foldl (expandDir m goal entry.2.2)
              { st with open_set := rest }) := rfl

theorem expandDir_inv (m : GameMap) (goal current s : Tile)
    (st : AStarState) (dc : Tile × ℚ) (hdc : 0 < dc.2)
    (hinv : AStarInv s st) :
    AStarInv s (expandDir m goal current st dc) := by
  obtain ⟨h1, h2, h3⟩ := hinv
  rw [expandDir_eq]
  split
  · exact ⟨h1, h2, h3⟩
  · split
    · rename_i hupd
      have hneq : (current.1 + dc.1.1, current.2 + dc.1.2) ≠ s := by
        intro he
        rw [he] at hupd
        rcases hupd with hnone | hlt
        · rw [h1] at hnone
          simp at hnone
        · rw [h1] at hlt
          have hcur : 0 ≤ (alookup st.g_score current).getD 0 :=
            alookup_getD_nonneg h2
          simp only [Option.getD_some] at hlt
          linarith
      refine ⟨?_, ?_, ?_⟩
      · show alookup (aset st.g_score _ _) s = some 0
        rw [alookup_aset_ne _ _ _ _ hneq]
        exact h1
      · intro e he
        rcases List.mem_cons.mp he with rfl | he'
        · show 0 ≤ (alookup st.g_score current).getD 0 + dc.2
          have hcur : 0 ≤ (alookup st.g_score current).getD 0 :=
            alookup_getD_nonneg h2
          linarith
        · exact h2 e he'
      · intro e he
        rcases List.mem_cons.mp he with rfl | he'
        · exact hneq
        · exact h3 e he'
    · exact ⟨h1, h2, h3⟩

theorem foldl_expandDir_inv (m : GameMap) (goal current s : Tile) :
    ∀ (l : List (Tile × ℚ)) (st : AStarState), (∀ dc ∈ l, 0 < dc.2) →
      AStarInv s st → AStarInv s (l.foldl (expandDir m goal current) st) := by
  intro l
  induction l with
  | nil => intro st _ h; exact h
  | cons dc rest ih =>
    intro st hpos hinv
    exact ih _ (fun d hd => hpos d (List.mem_cons_of_mem dc hd))
      (expandDir_inv m goal current s st dc
        (hpos dc (List.mem_cons_self dc rest)) hinv)

theorem astarLoop_spec (m : GameMap) (goal s : Tile) :
    ∀ (fuel : ℕ) (st : AStarState) (p : List Tile), AStarInv s st →
      astarLoop m goal fuel st = some p →
      (p ≠ [] → p.getLast? = some goal) ∧ s ∉ p := by
  intro fuel
  induction fuel with
  | zero =>
    intro st p _ h
    exact absurd h (by simp [astarLoop])
  | succ n ih =>
    intro st p hinv h
    rw [astarLoop_succ] at h
    split at h
    · simp only [Option.some.injEq] at h
      subst h
      exact ⟨fun hne => absurd rfl hne, by simp⟩
    · split at h
      · rename_i entry rest hpop hgoal
        have hspec := reconstruct_path_spec st.came_from (n + 1)
          entry.2.2 s p h hinv.2.2
        rw [hgoal] at hspec
        exact hspec
      · refine ih _ p ?_ h
        exact foldl_expandDir_inv m goal _ s DIRECTIONS _
          DIRECTIONS_cost_pos hinv

/-- C3 (amended): whenever `find_path` returns a path, the start tile
is not on it; a self-path has length ≤ 1 (it is empty); and a
non-empty path ends at the goal tile when the goal is walkable, and
otherwise at the tile chosen by the square-ring search — a walkable
tile within Chebyshev radius 9 of the goal, which need **not** be
adjacent to it. -/
theorem C3_find_path_goal (m : GameMap) (fuel : ℕ) (start goal : ℚ × ℚ)
    (p : List Tile) (hp : find_path m fuel start goal = some p) :
    ((pyInt start.1, pyInt start.2) : Tile) ∉ p ∧
    (((pyInt start.1, pyInt start.2) : Tile) =
        ((pyInt goal.1, pyInt goal.2) : Tile) → p.length ≤ 1) ∧
    (m.is_walkable (pyInt goal.1) (pyInt goal.2) = true → p ≠ [] →
      p.getLast? = some (pyInt goal.1, pyInt goal.2)) ∧
    (m.is_walkable (pyInt goal.1) (pyInt goal.2) = false → p ≠ [] →
      ∃ g', find_nearest_walkable m (pyInt goal.1, pyInt goal.2) =
          some g' ∧
        p.getLast? = some g' ∧ m.is_walkable g'.1 g'.2 = true ∧
        |g'.1 - pyInt goal.1| ≤ 9 ∧ |g'.2 - pyInt goal.2| ≤ 9) := by
  unfold find_path at hp
  by_cases hsg : ((pyInt start.1, pyInt start.2) : Tile) =
      ((pyInt goal.1, pyInt goal.2) : Tile)
  · rw [if_pos hsg] at hp
    simp only [Option.some.injEq] at hp
    subst hp
    exact ⟨by simp, fun _ => by simp, fun _ hne => absurd rfl hne,
      fun _ hne => absurd rfl hne⟩
  · rw [if_neg hsg] at hp
    have hinit : AStarInv (pyInt start.1, pyInt start.2)
        ⟨[((0 : ℚ), (0 : ℕ), ((pyInt start.1, pyInt start.2) : Tile))],
         [], [(((pyInt start.1, pyInt start.2) : Tile), (0 : ℚ))], 0⟩ := by
      refine ⟨?_, ?_, ?_⟩
      · simp [alookup]
      · intro e he
        rcases List.mem_singleton.mp he with rfl
        exact le_refl 0
      · intro e he
        simp at he
    by_cases hw : m.is_walkable (pyInt goal.1) (pyInt goal.2) = true
    · rw [if_pos hw] at hp
      have := astarLoop_spec m (pyInt goal.1, pyInt goal.2)
        (pyInt start.1, pyInt start.2) fuel _ p hinit hp
      exact ⟨this.2, fun he => absurd he hsg, fun _ => this.1,
        fun hfalse => absurd hw (by rw [hfalse]; exact Bool.false_ne_true)⟩
    · rw [if_neg hw] at hp
      rcases hnear : find_nearest_walkable m (pyInt goal.1, pyInt goal.2)
        with _ | g'
      · rw [hnear] at hp
        simp only [Option.some.injEq] at hp
        subst hp
        exact ⟨by simp, fun _ => by simp, fun _ hne => absurd rfl hne,
          fun _ hne => absurd rfl hne⟩
      · rw [hnear] at hp
        have hloop := astarLoop_spec m g'
          (pyInt start.1, pyInt start.2) fuel _ p hinit hp
        have hnw := find_nearest_walkable_spec m _ g' hnear
        exact ⟨hloop.2, fun he => absurd he hsg, fun ht => absurd ht hw,
          fun _ hne => ⟨g', rfl, hloop.1 hne, hnw.1, hnw.2.1, hnw.2.2⟩⟩

set_option maxRecDepth 100000 in
/-- C3 counterexample: on `mapRing`, `find_path` from (2, 1) to the
unwalkable goal (5, 3) returns the non-empty path `[(3, 1)]`, whose
last element is neither the goal tile nor adjacent to it (Chebyshev
distance 2) — the ring search is not limited to adjacent tiles. -/
theorem C3_counterexample :
    find_path mapRing 50 (2, 1) (5, 3) = some [((3 : ℤ), (1 : ℤ))] ∧
    mapRing.is_walkable 5 3 = false ∧
    [((3 : ℤ), (1 : ℤ))].getLast? = some ((3 : ℤ), (1 : ℤ)) ∧
    ¬ ((3 : ℤ), (1 : ℤ)) = ((5 : ℤ), (3 : ℤ)) ∧
    ¬ max |(3 : ℤ) - 5| |(1 : ℤ) - 3| ≤ 1 := by
  with_unfolding_all decide

set_option maxRecDepth 100000 in
theorem C3_witness :
    ((pyInt (2 : ℚ), pyInt (1 : ℚ)) : Tile) ∉ [((3 : ℤ), (1 : ℤ))] ∧
    ∃ g', find_nearest_walkable mapRing (pyInt (5 : ℚ), pyInt (3 : ℚ)) =
        some g' ∧
      [((3 : ℤ), (1 : ℤ))].getLast? = some g' ∧
      mapRing.is_walkable g'.1 g'.2 = true ∧
      |g'.1 - pyInt (5 : ℚ)| ≤ 9 ∧ |g'.2 - pyInt (3 : ℚ)| ≤ 9 :=
  have h := C3_find_path_goal mapRing 50 (2, 1) (5, 3)
    [((3 : ℤ), (1 : ℤ))] (by with_unfolding_all decide)
  ⟨h.1, h.2.2.2 (by with_unfolding_all decide) (by simp)⟩

end Microcraft
